import Mathlib

/-!
Shallow embedding of the pichu static-site pipeline (src/lib.rs, src/markdown.rs,
src/sass.rs, src/watch.rs).

Modelling conventions:
* Filesystem paths are `String`s; file contents are `String`s.
* Rayon parallel combinators (`into_par_iter().map().collect()`,
  `par_iter().map().collect::<Result<_,_>>()`, `par_sort_by_key`) are modelled by
  their sequential semantics: rayon's ordered collects reassemble results in the
  input order, its `Result` collect yields some encountered error (modelled here
  as the first in input order, one deterministic refinement of the
  implementation's nondeterminism), and `par_sort_by_key` is a stable merge sort.
* Filesystem writes are modelled as an append-only trace of `(path, contents)`
  pairs produced by a call; environment-dependent I/O failures are outside the
  model, so a `write` in the trace always succeeds.
* Caller-supplied fallible functions return `Except E _` in place of
  `Result<_, E>`.
* External collaborators (the glob engine, the YAML frontmatter splitter, the
  serde deserializer, the comrak HTML renderer, `Path::file_stem`, the grass
  compiler, the blake3 digest, the notify debouncer) are abstracted as function
  parameters; only the repository's own control flow is defined concretely.
-/

namespace Pichu

/-- The error type returned in this crate (`Error` in src/lib.rs). The payloads
boxed as `dyn Debug` in Rust are represented by a type parameter `E`; variants
not needed by the development (glob errors) are elided. -/
inductive Error (E : Type) where
  | ioError : String → Error E
  | parse : E → Error E
  | render : E → Error E
  | fileExists : String → Error E
  deriving Repr, DecidableEq

/-- One filesystem write performed by a call: destination path and contents. -/
abbrev WriteEvent := String × String

/-- Like `fs::write`, but creates directories as necessary (`write` in
src/lib.rs). Directory creation has no observable effect in the trace model,
so the call is the singleton trace of the write it performs. -/
def write (path : String) (contents : String) : List WriteEvent :=
  [(path, contents)]

/-- Rust's `.collect::<Result<Vec<T>, E>>()` over a sequence of results:
all values when every element is `ok`, otherwise the first error. -/
def collectExcept {E A : Type} : List (Except E A) → Except E (List A)
  | [] => .ok []
  | .error e :: _ => .error e
  | .ok a :: xs =>
    match collectExcept xs with
    | .error e => .error e
    | .ok as => .ok (a :: as)

/-- The first error in a sequence of results, if any. -/
def firstErr {E A : Type} : List (Except E A) → Option E
  | [] => none
  | .error e :: _ => some e
  | .ok _ :: xs => firstErr xs

/-- A list of paths, probably created by `glob` (`Glob` in src/lib.rs). -/
structure Glob where
  paths : List String
  deriving Repr, DecidableEq

/-- Parsed is a list of parsed items, ready to be sorted and rendered
(`Parsed<T>` in src/lib.rs). -/
structure Parsed (T : Type) where
  items : List T
  deriving Repr, DecidableEq

/-- Model of `Glob::parse`: parse the files using the provided parse function.
`self.paths.into_par_iter().map(parse_fn).collect::<Vec<T>>()` reassembles the
results in the original path order. -/
def Glob.parse {T : Type} (g : Glob) (parse_fn : String → T) : Parsed T :=
  ⟨g.paths.map parse_fn⟩

/-- Model of `Glob::try_parse`: parse the files in parallel using the provided
`parse_fn`; a failure of any path aggregates to a single `Error::Parse`
wrapping the cause. -/
def Glob.try_parse {T E : Type} (g : Glob) (parse_fn : String → Except E T) :
    Except (Error E) (Parsed T) :=
  match collectExcept (g.paths.map parse_fn) with
  | .error e => .error (Error.parse e)
  | .ok items => .ok ⟨items⟩

/-- Model of `Parsed::sort_by_key`: sort the items by the key provided, ascending.
`par_sort_by_key` is rayon's stable parallel sort, modelled by the stable
`List.mergeSort` on the key order. -/
def Parsed.sort_by_key {T K : Type} [LinearOrder K] (p : Parsed T) (f : T → K) :
    Parsed T :=
  ⟨p.items.mergeSort (fun a b => decide (f a ≤ f b))⟩

/-- Model of `Parsed::sort_by_key_reverse`: sort the items by the key provided,
descending — the ascending sort followed by `Vec::reverse`. -/
def Parsed.sort_by_key_reverse {T K : Type} [LinearOrder K] (p : Parsed T)
    (f : T → K) : Parsed T :=
  ⟨(p.items.mergeSort (fun a b => decide (f a ≤ f b))).reverse⟩

/-- Model of `Parsed::render_each`: render every item, then write each rendered content
at the item's built path. Returns the unchanged pipeline and the write trace. -/
def Parsed.render_each {T : Type} (p : Parsed T) (render_fn : T → String)
    (build_path_fn : T → String) : Parsed T × List WriteEvent :=
  (p, (p.items.map (fun item => (item, render_fn item))).flatMap
    (fun ic => write (build_path_fn ic.1) ic.2))

/-- Model of `Parsed::try_render_each`: two-phase. Render phase: collect every item's
rendered content, aborting with a single `Error::Render` on the first failure,
in which case no write happens. Write phase: write every (path, content) pair. -/
def Parsed.try_render_each {T E : Type} (p : Parsed T)
    (render_fn : T → Except E String) (build_path_fn : T → String) :
    Except (Error E) (Parsed T) × List WriteEvent :=
  match collectExcept (p.items.map
      (fun item => (render_fn item).map (fun content => (item, content)))) with
  | .error e => (.error (Error.render e), [])
  | .ok pairs =>
    (.ok p, pairs.flatMap (fun ic => write (build_path_fn ic.1) ic.2))

/-- Model of `Parsed::render_all`: render all items into a single destination — one
invocation of `render_fn` on the full item vector, one write. -/
def Parsed.render_all {T : Type} (p : Parsed T) (render_fn : List T → String)
    (dest_path : String) : Parsed T × List WriteEvent :=
  (p, write dest_path (render_fn p.items))

/-- Model of `Parsed::into_vec`: extract the underlying vector. -/
def Parsed.into_vec {T : Type} (p : Parsed T) : List T :=
  p.items

/-- Model of `Parsed::first`: a reference to the first item, or `None` if empty. -/
def Parsed.firstItem {T : Type} (p : Parsed T) : Option T :=
  p.items.head?

/-! ## Watcher (src/watch.rs)

The debounced event source (`notify_debouncer_mini`) is external: the
receiver's stream of `DebounceEventResult = Result<Vec<DebouncedEvent>, Error>`
values is a parameter, a finite list whose end models the channel closing. The
`on_change` callback is observed through the trace of batches it is invoked
with, in order. `N` stands for the opaque notify error type. -/

/-- A debounced event delivered by the watcher backend; only its `path` field
is consumed by src/watch.rs. -/
structure DebouncedEvent where
  path : String
  deriving Repr, DecidableEq

/-- The `for events_res in rx` loop of `watch`: for each received batch,
propagate an error result with `?`; otherwise collect the events' paths and
invoke the callback when the collected list is non-empty. Returns the trace of
callback invocations and the loop's result (`Ok(())` when the channel closes
with no error received). -/
def watchLoop {N : Type} :
    List (Except N (List DebouncedEvent)) → List (List String) × Except N Unit
  | [] => ([], .ok ())
  | .error e :: _ => ([], .error e)
  | .ok events :: rest =>
    let changed_paths := events.map DebouncedEvent.path
    let (batches, res) := watchLoop rest
    (if changed_paths.isEmpty then batches else changed_paths :: batches, res)

/-- Model of `watch` in src/watch.rs: create the debouncer (`debouncer_init` is the
outcome of `new_debouncer`), subscribe each path (`watch_results` are the
outcomes of the `debouncer.watcher().watch(..)` calls, aborted at the first
error by `?`), then run the receive loop over the stream. -/
def watch {N : Type} (debouncer_init : Except N Unit)
    (watch_results : List (Except N Unit))
    (stream : List (Except N (List DebouncedEvent))) :
    List (List String) × Except N Unit :=
  match debouncer_init with
  | .error e => ([], .error e)
  | .ok _ =>
    match collectExcept watch_results with
    | .error e => ([], .error e)
    | .ok _ => watchLoop stream

/-! ## Markdown stage (src/markdown.rs)

`File::open`/`read_to_string`, `gray_matter`'s frontmatter splitter, serde's
deserializer, comrak's HTML renderer and `Path::file_stem` are external
collaborators, passed as parameters. -/

/-- Error type for markdown parsing operations (`MarkdownError` in
src/markdown.rs); `E` stands for the serde error payload of
`DeserializeFrontmatter`. -/
inductive MarkdownError (E : Type) where
  | ioError : String → MarkdownError E
  | missingFrontmatter : String → MarkdownError E
  | deserializeFrontmatter : String → E → MarkdownError E
  | noFileStem : String → MarkdownError E
  deriving Repr, DecidableEq

/-- A parsed markdown file (`Markdown<T>` in src/markdown.rs). -/
structure Markdown (T : Type) where
  frontmatter : T
  basename : String
  markdown : String
  html : String
  deriving Repr, DecidableEq

/-- The outcome of `Matter::<YAML>::new().parse(contents)`: the optional raw
frontmatter data (`R` abstracts `gray_matter`'s untyped value) and the content
remaining after the frontmatter block. -/
structure MatterResult (R : Type) where
  data : Option R
  content : String

/-- Model of `parse_markdown` in src/markdown.rs. `read_file` models
`File::open` + `read_to_string` (its error already rendered to a message),
`matter` the frontmatter split, `deserialize` the serde decode into the
caller's schema `T`, `render_html` comrak's `markdown_to_html_with_plugins`
with the crate's fixed options, and `file_stem` `Path::file_stem` composed
with `to_string_lossy`. -/
def parse_markdown {R E T : Type} (read_file : String → Except String String)
    (matter : String → MatterResult R) (deserialize : R → Except E T)
    (render_html : String → String) (file_stem : String → Option String)
    (path : String) : Except (MarkdownError E) (Markdown T) :=
  match read_file path with
  | .error e => .error (MarkdownError.ioError e)
  | .ok contents =>
    let markdown := matter contents
    match markdown.data with
    | none => .error (MarkdownError.missingFrontmatter path)
    | some raw =>
      match deserialize raw with
      | .error e => .error (MarkdownError.deserializeFrontmatter path e)
      | .ok frontmatter =>
        let html := render_html markdown.content
        match file_stem path with
        | none => .error (MarkdownError.noFileStem path)
        | some basename => .ok ⟨frontmatter, basename, markdown.content, html⟩

/-! ## Sass stage (src/sass.rs)

The grass compiler and the blake3 digest are external: `compile` models
`grass::from_path` with the source's parent directory on the load path, and
`digest` models `blake3::hash` on the CSS bytes, returning the 32 digest
bytes. `blake3::Hash::to_string` renders the digest as lowercase hex, which is
defined concretely below. -/

/-- Error type for SASS/SCSS compilation operations (`SassError` in
src/sass.rs); `E` stands for the boxed grass error. -/
inductive SassError (E : Type) where
  | ioError : String → SassError E
  | sassCompile : E → SassError E
  deriving Repr, DecidableEq

/-- The lowercase hexadecimal digit for a nibble value. -/
def hexDigitChar (n : Nat) : Char :=
  if n < 10 then Char.ofNat (48 + n) else Char.ofNat (87 + n)

/-- Lowercase hex rendering of a byte sequence, two digits per byte —
the format of `blake3::Hash::to_string`. -/
def bytesToHex (bs : List Nat) : List Char :=
  bs.flatMap (fun b => [hexDigitChar (b / 16), hexDigitChar (b % 16)])

/-- Model of `render_sass` in src/sass.rs: compile the source, take the first 16
characters of the digest's hex string as the fingerprint, write the CSS to the
destination and return the fingerprint. The call's result is paired with its
write trace. -/
def render_sass {E : Type} (compile : String → Except E String)
    (digest : String → List Nat) (source : String) (path : String) :
    Except (SassError E) String × List WriteEvent :=
  match compile source with
  | .error e => (.error (SassError.sassCompile e), [])
  | .ok css =>
    let hash : String := ⟨(bytesToHex (digest css)).take 16⟩
    (.ok hash, write path css)

/-! ## Helper lemmas on result collection -/

theorem firstErr_eq_none_iff {E A : Type} (xs : List (Except E A)) :
    firstErr xs = none ↔ ∀ x ∈ xs, ∃ a, x = Except.ok a := by
  induction xs with
  | nil => simp [firstErr]
  | cons x xs ih =>
    cases x with
    | error e => simp [firstErr]
    | ok a => simp [firstErr, ih]

theorem collectExcept_eq_error_iff {E A : Type} (xs : List (Except E A)) (e : E) :
    collectExcept xs = .error e ↔ firstErr xs = some e := by
  induction xs with
  | nil => simp [collectExcept, firstErr]
  | cons x xs ih =>
    cases x with
    | error c => simp [collectExcept, firstErr]
    | ok a =>
      rw [show firstErr (Except.ok a :: xs) = firstErr xs from rfl]
      rw [show collectExcept (Except.ok a :: xs)
        = match collectExcept xs with
          | .error e => .error e
          | .ok as => .ok (a :: as) from rfl]
      cases hc : collectExcept xs with
      | error c => simpa [hc] using ih
      | ok as => simp [hc] at ih ⊢; exact ih

theorem firstErr_isSome {E A : Type} {xs : List (Except E A)}
    (h : ∃ x ∈ xs, ∃ e, x = Except.error e) : ∃ c, firstErr xs = some c := by
  cases hf : firstErr xs with
  | some c => exact ⟨c, rfl⟩
  | none =>
    obtain ⟨x, hx, e, he⟩ := h
    obtain ⟨a, ha⟩ := (firstErr_eq_none_iff xs).1 hf x hx
    rw [he] at ha
    exact absurd ha (by simp)

/-! ## Claim theorems -/

/-- Claim C2: for every `PathSet` and parse function `f`, `parse` followed by
`into_vec` yields exactly `f(path)` for each path, with the same length as the
path set and in its original order. -/
theorem claim_c2 {T : Type} (g : Glob) (f : String → T) :
    (g.parse f).into_vec = g.paths.map f ∧
    (g.parse f).into_vec.length = g.paths.length :=
  ⟨rfl, by simp [Glob.parse, Parsed.into_vec]⟩

/-- Claim C1: if the fallible per-item render function fails for any item,
`try_render_each` returns a single `Error::Render` and its write trace is
empty — the write phase is never entered. -/
theorem claim_c1 {T E : Type} (p : Parsed T) (render_fn : T → Except E String)
    (build_path_fn : T → String)
    (h : ∃ item ∈ p.items, ∃ e, render_fn item = .error e) :
    ∃ c, p.try_render_each render_fn build_path_fn
      = (.error (Error.render c), []) := by
  obtain ⟨item, hmem, e, herr⟩ := h
  have hex : ∃ x ∈ p.items.map
      (fun item => (render_fn item).map (fun content => (item, content))),
      ∃ e', x = Except.error e' :=
    ⟨_, List.mem_map_of_mem _ hmem, e, by rw [herr]; rfl⟩
  obtain ⟨c, hc⟩ := firstErr_isSome hex
  refine ⟨c, ?_⟩
  unfold Parsed.try_render_each
  rw [(collectExcept_eq_error_iff _ _).2 hc]

/-- Claim C1 witness: a one-item pipeline whose render function fails yields a
single render error and an empty write trace. -/
theorem claim_c1_witness :
    ∃ c, (Parsed.mk [0]).try_render_each
        (fun _ => (Except.error "boom" : Except String String))
        (fun _ => "out.html")
      = (.error (Error.render c), []) :=
  claim_c1 ⟨[0]⟩ _ _ ⟨0, by simp, "boom", rfl⟩

/-- Claim C3, counterexample to the claim as stated: `try_parse` wraps only
the caller's error value in `Error::Parse`, not the failing path. Two path
sets that differ only in which path fails produce the identical error value
`Error.parse ()`, which therefore cannot name (wrap) the failing path. -/
theorem claim_c3_counterexample :
    (Glob.mk ["a.md"]).try_parse (fun _ => (Except.error () : Except Unit Unit))
      = .error (Error.parse ()) ∧
    (Glob.mk ["b.md"]).try_parse (fun _ => (Except.error () : Except Unit Unit))
      = .error (Error.parse ()) :=
  ⟨rfl, rfl⟩

/-- Claim C3, amended: if the parse function fails for at least one path,
`try_parse` fails overall with a single `Error::Parse` wrapping the first
encountered failure's cause (the cause names the path only insofar as the
caller's error type itself carries it), and no `Parsed` pipeline is produced —
every successfully parsed item of the call is discarded. -/
theorem claim_c3 {T E : Type} (g : Glob) (parse_fn : String → Except E T)
    (h : ∃ p ∈ g.paths, ∃ e, parse_fn p = .error e) :
    ∃ c, firstErr (g.paths.map parse_fn) = some c ∧
      g.try_parse parse_fn = .error (Error.parse c) ∧
      ∀ pl : Parsed T, g.try_parse parse_fn ≠ .ok pl := by
  obtain ⟨p, hmem, e, herr⟩ := h
  obtain ⟨c, hc⟩ := firstErr_isSome
    ⟨_, List.mem_map_of_mem parse_fn hmem, e, herr⟩
  refine ⟨c, hc, ?_⟩
  unfold Glob.try_parse
  rw [(collectExcept_eq_error_iff _ _).2 hc]
  exact ⟨rfl, fun pl => by simp⟩

/-- Claim C3 witness: with one failing path among two, the call fails with the
failing path's cause and yields no pipeline. -/
theorem claim_c3_witness :
    ∃ c, firstErr ((Glob.mk ["a.md", "b.md"]).paths.map
        (fun p => if p = "b.md" then (Except.error "bad" : Except String Nat)
          else .ok 1)) = some c ∧
      (Glob.mk ["a.md", "b.md"]).try_parse
        (fun p => if p = "b.md" then (Except.error "bad" : Except String Nat)
          else .ok 1) = .error (Error.parse c) ∧
      ∀ pl : Parsed Nat, (Glob.mk ["a.md", "b.md"]).try_parse
        (fun p => if p = "b.md" then (Except.error "bad" : Except String Nat)
          else .ok 1) ≠ .ok pl :=
  claim_c3 ⟨["a.md", "b.md"]⟩ _ ⟨"b.md", by simp, "bad", by simp⟩

/-- Claim C9: `render_all` renders the full item sequence once, in its current
order, and writes exactly one file at the destination; an empty pipeline still
produces the destination file with the render function applied to the empty
sequence. -/
theorem claim_c9 {T : Type} (p : Parsed T) (render_fn : List T → String)
    (dest : String) :
    p.render_all render_fn dest = (p, [(dest, render_fn p.items)]) ∧
    (p.render_all render_fn dest).2.length = 1 ∧
    (Parsed.mk ([] : List T)).render_all render_fn dest
      = (⟨[]⟩, [(dest, render_fn [])]) :=
  ⟨rfl, rfl, rfl⟩

/-- Claim C6: `sort_by_key` returns a permutation of the items whose adjacent
pairs are ascending by key, and `sort_by_key_reverse` a permutation whose
adjacent pairs are descending by key. -/
theorem claim_c6 {T K : Type} [LinearOrder K] (p : Parsed T) (f : T → K) :
    (p.sort_by_key f).items.Perm p.items ∧
    List.Chain' (fun a b => f a ≤ f b) (p.sort_by_key f).items ∧
    (p.sort_by_key_reverse f).items.Perm p.items ∧
    List.Chain' (fun a b => f b ≤ f a) (p.sort_by_key_reverse f).items := by
  have htrans : ∀ a b c : T, decide (f a ≤ f b) = true →
      decide (f b ≤ f c) = true → decide (f a ≤ f c) = true := by
    intro a b c h1 h2
    simp only [decide_eq_true_eq] at h1 h2 ⊢
    exact le_trans h1 h2
  have htotal : ∀ a b : T,
      (decide (f a ≤ f b) || decide (f b ≤ f a)) = true := by
    intro a b
    simpa using le_total (f a) (f b)
  have hsorted := List.sorted_mergeSort htrans htotal p.items
  have hsorted' : List.Pairwise (fun a b => f a ≤ f b)
      (p.items.mergeSort (fun a b => decide (f a ≤ f b))) :=
    hsorted.imp (fun h => by simpa using h)
  have hperm := List.mergeSort_perm p.items (fun a b => decide (f a ≤ f b))
  refine ⟨hperm, hsorted'.chain', (List.reverse_perm _).trans hperm, ?_⟩
  exact (List.pairwise_reverse.2 hsorted').chain'

/-- Claim C10: `sort_by_key_reverse` yields exactly the reversal of the
sequence produced by `sort_by_key` with the same key function; consequently
the items of any fixed key appear in the reverse of the relative order the
ascending sort gives them. -/
theorem claim_c10 {T K : Type} [LinearOrder K] (p : Parsed T) (f : T → K) :
    (p.sort_by_key_reverse f).items = ((p.sort_by_key f).items).reverse ∧
    ∀ k : K, (p.sort_by_key_reverse f).items.filter (fun t => decide (f t = k))
      = ((p.sort_by_key f).items.filter (fun t => decide (f t = k))).reverse :=
  ⟨rfl, fun _ => List.filter_reverse _ _⟩

/-! ## Helper lemmas on the watcher loop -/

/-- The values delivered before the first error of a result stream — what the
receive loop consumes before it stops. -/
def okPart {E A : Type} : List (Except E A) → List A
  | [] => []
  | .error _ :: _ => []
  | .ok a :: xs => a :: okPart xs

theorem mem_okPart {E A : Type} {xs : List (Except E A)} {a : A}
    (h : a ∈ okPart xs) : Except.ok a ∈ xs := by
  induction xs with
  | nil => cases h
  | cons x xs ih =>
    cases x with
    | error e => cases h
    | ok b =>
      rcases List.mem_cons.1 h with h' | h'
      · exact h' ▸ List.mem_cons_self _ _
      · exact List.mem_cons_of_mem _ (ih h')

theorem collectExcept_exists_ok_iff {E A : Type} (xs : List (Except E A)) :
    (∃ as, collectExcept xs = .ok as) ↔ firstErr xs = none := by
  cases hc : collectExcept xs with
  | error e =>
    rw [(collectExcept_eq_error_iff xs e).1 hc]
    simp
  | ok as =>
    cases hf : firstErr xs with
    | none => simp
    | some e => rw [(collectExcept_eq_error_iff xs e).2 hf] at hc; cases hc

/-- Closed form of the receive loop: it delivers exactly the non-empty path
batches of the stream's prefix before the first error, and its result is the
first error when one arrives, `Ok(())` when the channel closes without one. -/
theorem watchLoop_eq {N : Type}
    (stream : List (Except N (List DebouncedEvent))) :
    watchLoop stream
      = (((okPart stream).map (fun evs => evs.map DebouncedEvent.path)).filter
          (fun b => !b.isEmpty),
        match firstErr stream with
        | some e => .error e
        | none => .ok ()) := by
  induction stream with
  | nil => rfl
  | cons x xs ih =>
    cases x with
    | error e => rfl
    | ok evs =>
      simp only [watchLoop, okPart, firstErr, List.map_cons, List.filter_cons,
        ih]
      cases h : (evs.map DebouncedEvent.path).isEmpty <;> simp [h]

/-! ## Watcher claims -/

/-- Claim C4, counterexample to the claim as stated: when setup succeeds and
the event source closes without delivering an error, `watch` returns `Ok(())`
— a successful return, so it is not the case that every return is a
`NotifyError`. -/
theorem claim_c4_counterexample :
    watch (Except.ok () : Except String Unit) [] [] = ([], .ok ()) :=
  rfl

/-- Claim C4, amended: the watch loop consumes the event stream up to the
first error — every batch delivered before it is processed — and it fails
with a `NotifyError` exactly when debouncer creation, a watch subscription,
or a received event result is an error; if the event source closes without an
error, it returns successfully. -/
theorem claim_c4 {N : Type} (debouncer_init : Except N Unit)
    (watch_results : List (Except N Unit))
    (stream : List (Except N (List DebouncedEvent))) :
    ((watch debouncer_init watch_results stream).2 = .ok () ↔
      (debouncer_init = .ok () ∧ firstErr watch_results = none ∧
        firstErr stream = none)) ∧
    (debouncer_init = .ok () → firstErr watch_results = none →
      (watch debouncer_init watch_results stream).1
        = ((okPart stream).map (fun evs => evs.map DebouncedEvent.path)).filter
            (fun b => !b.isEmpty)) := by
  cases debouncer_init with
  | error e => simp [watch]
  | ok u =>
    cases u
    cases hw : collectExcept watch_results with
    | error e =>
      have hfw := (collectExcept_eq_error_iff watch_results e).1 hw
      simp [watch, hw, hfw]
    | ok as =>
      have hfw : firstErr watch_results = none :=
        (collectExcept_exists_ok_iff watch_results).1 ⟨as, hw⟩
      simp only [watch, hw, watchLoop_eq, hfw]
      cases hf : firstErr stream with
      | none => simp
      | some e => simp

/-- Claim C4 witness: with successful setup and a stream that delivers one
batch and then an error, the loop fails with that notify error after
delivering the batch; an error-free closed stream yields a successful
return. -/
theorem claim_c4_witness :
    (((watch (Except.ok () : Except String Unit) [.ok ()]
        [.ok [⟨"a"⟩], .error "closed"]).2 = .ok () ↔
      ((.ok () : Except String Unit) = .ok () ∧
        firstErr [(.ok () : Except String Unit)] = none ∧
        firstErr [.ok [(⟨"a"⟩ : DebouncedEvent)],
          (.error "closed" : Except String (List DebouncedEvent))] = none)) ∧
    ((.ok () : Except String Unit) = .ok () →
      firstErr [(.ok () : Except String Unit)] = none →
      (watch (Except.ok () : Except String Unit) [.ok ()]
          [.ok [⟨"a"⟩], .error "closed"]).1
        = ((okPart [.ok [(⟨"a"⟩ : DebouncedEvent)],
              (.error "closed" : Except String (List DebouncedEvent))]).map
            (fun evs => evs.map DebouncedEvent.path)).filter
            (fun b => !b.isEmpty))) :=
  claim_c4 (.ok ()) [.ok ()] [.ok [⟨"a"⟩], .error "closed"]

/-- Claim C5: assuming the debouncer's contract — each delivered event batch
holds at most one event per path — every batch the watcher passes to the
callback is non-empty and duplicate-free, and the callback trace holds exactly
one invocation per non-empty debounced batch, in arrival order. -/
theorem claim_c5 {N : Type} (stream : List (Except N (List DebouncedEvent)))
    (hdedup : ∀ evs, Except.ok evs ∈ stream →
      (evs.map DebouncedEvent.path).Nodup) :
    (watchLoop stream).1
      = ((okPart stream).map (fun evs => evs.map DebouncedEvent.path)).filter
          (fun b => !b.isEmpty) ∧
    ∀ batch ∈ (watchLoop stream).1, batch ≠ [] ∧ batch.Nodup := by
  rw [watchLoop_eq]
  refine ⟨rfl, fun batch hb => ?_⟩
  have hb' := List.mem_filter.1 hb
  obtain ⟨evs, hevs, hmap⟩ := List.mem_map.1 hb'.1
  constructor
  · intro hnil
    rw [hnil] at hb'
    simp at hb'
  · exact hmap ▸ hdedup evs (mem_okPart hevs)

/-- Claim C5 witness: a stream delivering the deduplicated batch `[a, b]` and
an empty batch yields exactly one callback invocation, with the non-empty,
duplicate-free batch `[a, b]`. -/
theorem claim_c5_witness :
    ((watchLoop [Except.ok [(⟨"a"⟩ : DebouncedEvent), ⟨"b"⟩], (Except.ok [] : Except Unit (List DebouncedEvent))]).1
      = ((okPart [.ok [(⟨"a"⟩ : DebouncedEvent), ⟨"b"⟩],
            (.ok [] : Except Unit (List DebouncedEvent))]).map
          (fun evs => evs.map DebouncedEvent.path)).filter
          (fun b => !b.isEmpty) ∧
    ∀ batch ∈ (watchLoop [Except.ok [(⟨"a"⟩ : DebouncedEvent), ⟨"b"⟩],
        (Except.ok [] : Except Unit (List DebouncedEvent))]).1,
      batch ≠ [] ∧ batch.Nodup) :=
  claim_c5 [.ok [⟨"a"⟩, ⟨"b"⟩], .ok []]
    (by intro evs h; rcases List.mem_cons.1 h with h' | h' <;> simp_all)

/-! ## Markdown claim -/

/-- Claim C7: `parse_markdown` fails with `MissingFrontmatter` naming the path
when the file has no frontmatter block, with `DeserializeFrontmatter(path,
cause)` when the frontmatter does not match the caller's schema, and with
`NoFileStem` when the path has no file stem; otherwise it succeeds with
`basename` set to the file stem (the filename without its final extension). -/
theorem claim_c7 {R E T : Type} (read_file : String → Except String String)
    (matter : String → MatterResult R) (deserialize : R → Except E T)
    (render_html : String → String) (file_stem : String → Option String)
    (path contents : String) (hread : read_file path = .ok contents) :
    ((matter contents).data = none →
      parse_markdown read_file matter deserialize render_html file_stem path
        = .error (MarkdownError.missingFrontmatter path)) ∧
    (∀ raw c, (matter contents).data = some raw →
      deserialize raw = .error c →
      parse_markdown read_file matter deserialize render_html file_stem path
        = .error (MarkdownError.deserializeFrontmatter path c)) ∧
    (∀ raw fm, (matter contents).data = some raw → deserialize raw = .ok fm →
      file_stem path = none →
      parse_markdown read_file matter deserialize render_html file_stem path
        = .error (MarkdownError.noFileStem path)) ∧
    (∀ raw fm stem, (matter contents).data = some raw →
      deserialize raw = .ok fm → file_stem path = some stem →
      parse_markdown read_file matter deserialize render_html file_stem path
        = .ok ⟨fm, stem, (matter contents).content,
            render_html (matter contents).content⟩) := by
  unfold parse_markdown
  rw [hread]
  refine ⟨fun h => by simp [h], fun raw c h1 h2 => by simp [h1, h2],
    fun raw fm h1 h2 h3 => by simp [h1, h2, h3],
    fun raw fm stem h1 h2 h3 => by simp [h1, h2, h3]⟩

/-- Claim C7 witness: a concrete environment exercising the theorem — the file
reads successfully, and the four branch conclusions hold as stated. -/
theorem claim_c7_witness :
    (((fun _ => ⟨some 7, "body"⟩ : String → MatterResult Nat)
        "text").data = none →
      parse_markdown (fun _ => .ok "text")
        (fun _ => ⟨some 7, "body"⟩ : String → MatterResult Nat)
        (fun r => (.ok (r + 1) : Except String Nat)) (fun s => s ++ "!")
        (fun _ => some "post") "blog/post.md"
        = .error (MarkdownError.missingFrontmatter "blog/post.md")) ∧
    (∀ raw c, ((fun _ => ⟨some 7, "body"⟩ : String → MatterResult Nat)
        "text").data = some raw →
      (fun r => (.ok (r + 1) : Except String Nat)) raw = .error c →
      parse_markdown (fun _ => .ok "text")
        (fun _ => ⟨some 7, "body"⟩ : String → MatterResult Nat)
        (fun r => (.ok (r + 1) : Except String Nat)) (fun s => s ++ "!")
        (fun _ => some "post") "blog/post.md"
        = .error (MarkdownError.deserializeFrontmatter "blog/post.md" c)) ∧
    (∀ raw fm, ((fun _ => ⟨some 7, "body"⟩ : String → MatterResult Nat)
        "text").data = some raw →
      (fun r => (.ok (r + 1) : Except String Nat)) raw = .ok fm →
      (fun _ => (some "post" : Option String)) "blog/post.md" = none →
      parse_markdown (fun _ => .ok "text")
        (fun _ => ⟨some 7, "body"⟩ : String → MatterResult Nat)
        (fun r => (.ok (r + 1) : Except String Nat)) (fun s => s ++ "!")
        (fun _ => some "post") "blog/post.md"
        = .error (MarkdownError.noFileStem "blog/post.md")) ∧
    (∀ raw fm stem, ((fun _ => ⟨some 7, "body"⟩ : String → MatterResult Nat)
        "text").data = some raw →
      (fun r => (.ok (r + 1) : Except String Nat)) raw = .ok fm →
      (fun _ => (some "post" : Option String)) "blog/post.md" = some stem →
      parse_markdown (fun _ => .ok "text")
        (fun _ => ⟨some 7, "body"⟩ : String → MatterResult Nat)
        (fun r => (.ok (r + 1) : Except String Nat)) (fun s => s ++ "!")
        (fun _ => some "post") "blog/post.md"
        = .ok ⟨fm, stem,
            ((fun _ => ⟨some 7, "body"⟩ : String → MatterResult Nat)
              "text").content,
            (fun s => s ++ "!")
              (((fun _ => ⟨some 7, "body"⟩ : String → MatterResult Nat)
                "text").content)⟩) :=
  claim_c7 (fun _ => .ok "text")
    (fun _ => ⟨some 7, "body"⟩ : String → MatterResult Nat)
    (fun r => (.ok (r + 1) : Except String Nat)) (fun s => s ++ "!")
    (fun _ => some "post") "blog/post.md" "text" rfl

/-! ## Sass claim -/

/-- Membership in the lowercase hexadecimal digit alphabet: a decimal digit
or a letter between `a` and `f`. -/
def isLowerHexDigit (c : Char) : Prop :=
  ('0' ≤ c ∧ c ≤ '9') ∨ ('a' ≤ c ∧ c ≤ 'f')

instance (c : Char) : Decidable (isLowerHexDigit c) := by
  unfold isLowerHexDigit
  infer_instance

theorem hexDigitChar_isLowerHex : ∀ n < 16, isLowerHexDigit (hexDigitChar n) :=
  by decide

theorem bytesToHex_length (bs : List Nat) :
    (bytesToHex bs).length = 2 * bs.length := by
  induction bs with
  | nil => rfl
  | cons b bs ih =>
    simp only [bytesToHex, List.flatMap_cons, List.length_append,
      List.length_cons, List.length_nil] at ih ⊢
    omega

theorem mem_bytesToHex_isLowerHex {bs : List Nat} (hb : ∀ b ∈ bs, b < 256)
    {c : Char} (hc : c ∈ bytesToHex bs) : isLowerHexDigit c := by
  obtain ⟨b, hbmem, hcb⟩ := List.mem_flatMap.1 hc
  have hlt := hb b hbmem
  rcases List.mem_cons.1 hcb with h | h
  · exact h ▸ hexDigitChar_isLowerHex (b / 16) (Nat.div_lt_of_lt_mul hlt)
  · rw [List.mem_singleton.1 h]
    exact hexDigitChar_isLowerHex (b % 16) (Nat.mod_lt b (by omega))

/-- Claim C8: whenever `render_sass` succeeds, the returned fingerprint is
exactly 16 characters of lowercase hexadecimal, equal to the first 16 hex
characters of the digest of the compiled CSS bytes, and the CSS written to
the destination is exactly those bytes. The hypotheses are the blake3
contract: a 32-byte digest. -/
theorem claim_c8 {E : Type} (compile : String → Except E String)
    (digest : String → List Nat) (source path css : String)
    (hcompile : compile source = .ok css)
    (hlen : (digest css).length = 32)
    (hbytes : ∀ b ∈ digest css, b < 256) :
    ∃ hash : String,
      render_sass compile digest source path = (.ok hash, [(path, css)]) ∧
      hash.length = 16 ∧
      (∀ c ∈ hash.toList, isLowerHexDigit c) ∧
      hash.toList = (bytesToHex (digest css)).take 16 := by
  refine ⟨⟨(bytesToHex (digest css)).take 16⟩, ?_, ?_, ?_, rfl⟩
  · unfold render_sass
    rw [hcompile]
    rfl
  · show ((bytesToHex (digest css)).take 16).length = 16
    rw [List.length_take, bytesToHex_length, hlen]
    decide
  · intro c hc
    exact mem_bytesToHex_isLowerHex hbytes (List.mem_of_mem_take hc)

/-- Claim C8 witness: a concrete digest of 32 bytes yields a 16-character
lowercase-hex fingerprint equal to the digest's first 16 hex characters, with
the CSS written to the destination. -/
theorem claim_c8_witness :
    ∃ hash : String,
      render_sass (fun _ => (.ok "body \x7b color: red \x7d" : Except Unit String))
          (fun _ => List.range 32) "style.scss" "dist/style.css"
        = (.ok hash, [("dist/style.css", "body \x7b color: red \x7d")]) ∧
      hash.length = 16 ∧
      (∀ c ∈ hash.toList, isLowerHexDigit c) ∧
      hash.toList
        = (bytesToHex ((fun _ => List.range 32)
            "body \x7b color: red \x7d")).take 16 :=
  claim_c8 (fun _ => .ok "body \x7b color: red \x7d") (fun _ => List.range 32)
    "style.scss" "dist/style.css" "body \x7b color: red \x7d" rfl (by simp)
    (by decide)

end Pichu
